import Mathlib

/-!
Shallow embedding of the core of `src/index.js` (Binance futures aggressive
flow monitor): the per-symbol sliding-window trade aggregator
(`SymbolState`), the OKX open-interest history lookup
(`OKXOpenInterestTracker.getOIStats`), the signal interpreter
(`SignalEngine.interpretSignal`), the cooldown gate (`CooldownManager`)
and the pending-alert scheduler (`AlertManager`).

JavaScript numbers are modelled as rationals (`ℚ`); timestamps as `Int`
(milliseconds).  Strings that the code compares with `===` are modelled as
Lean `String`s with the same literal values.  Presentation-only fields of
the records (emoji, labels, human-readable reason strings, threshold echo
fields) carry no logic and are omitted from the embedded records; every
field a claim talks about is kept.
-/

/-! ## Configuration (src/index.js, CONFIG) -/

/-- Default of `CONFIG.OI_MIN_DELTA_PERCENT` (line 96): `0.6`. -/
def OI_MIN_DELTA_PERCENT : ℚ := 6/10

/-- Default of `CONFIG.OI_MIN_PRICE_CHANGE_PERCENT` (line 97): `0.35`. -/
def OI_MIN_PRICE_CHANGE_PERCENT : ℚ := 35/100

/-- Hard-coded significance threshold `OI_THRESHOLD = 0.5` inside
`interpretSignal` (line 725). -/
def OI_THRESHOLD : ℚ := 1/2

/-- Hard-coded significance threshold `PRICE_THRESHOLD = 0.1` inside
`interpretSignal` (line 726). -/
def PRICE_THRESHOLD : ℚ := 1/10

/-- Per-symbol configuration record (`CONFIG.SYMBOL_CONFIGS[...]`). -/
structure SymbolConfig where
  minVolumeUSD : ℚ
  minDominance : ℚ
  minPriceChange : ℚ
  cooldownMinutes : Int
  enabled : Bool
deriving Repr, DecidableEq

/-! ## Sliding-window trade aggregator (`SymbolState`, lines 464-548) -/

/-- One stored trade: `{timestamp, price, buyVol, sellVol}` as built by
`SymbolState.addTrade` (lines 476-481). -/
structure Trade where
  timestamp : Int
  price : ℚ
  buyVol : ℚ
  sellVol : ℚ
deriving Repr, DecidableEq

/-- The per-symbol window state (`SymbolState` constructor, lines 465-471):
`windowMs = windowSeconds * 1000`, empty trade list, null first/last price. -/
structure SymbolState where
  symbol : String
  windowMs : Int
  trades : List Trade
  firstPrice : Option ℚ
  lastPrice : Option ℚ
deriving Repr, DecidableEq

/-- `new SymbolState(symbol, windowSeconds)` (lines 465-471). -/
def SymbolState.init (symbol : String) (windowSeconds : Int) : SymbolState :=
  { symbol := symbol
    windowMs := windowSeconds * 1000
    trades := []
    firstPrice := none
    lastPrice := none }

/-- `SymbolState.cleanup(currentTime)` (lines 493-502): drop trades with
`timestamp < currentTime - windowMs`, and recompute `firstPrice` from the
new head of the list (null when empty).  `lastPrice` is not touched. -/
def SymbolState.cleanup (s : SymbolState) (currentTime : Int) : SymbolState :=
  let cutoff := currentTime - s.windowMs
  let trades := s.trades.filter (fun t => cutoff ≤ t.timestamp)
  { s with
    trades := trades
    firstPrice := match trades with
      | [] => none
      | t :: _ => some t.price }

/-- `SymbolState.addTrade(timestamp, price, quantity, isBuyerMaker)`
(lines 473-491): append the derived trade (`volume = price * quantity`,
booked on the buy side iff the buyer was not the maker), update
`lastPrice`, set `firstPrice` on the first-ever trade, then run
`cleanup(timestamp)`. -/
def SymbolState.addTrade (s : SymbolState) (timestamp : Int) (price quantity : ℚ)
    (isBuyerMaker : Bool) : SymbolState :=
  let volume := price * quantity
  let trade : Trade :=
    { timestamp := timestamp
      price := price
      buyVol := if isBuyerMaker then 0 else volume
      sellVol := if isBuyerMaker then volume else 0 }
  let s' : SymbolState :=
    { s with
      trades := s.trades ++ [trade]
      lastPrice := some price
      firstPrice := match s.firstPrice with
        | none => some price
        | some p => some p }
  s'.cleanup timestamp

/-- The record returned by `SymbolState.getStats()` (lines 530-540). -/
structure Stats where
  buyVolume : ℚ
  sellVolume : ℚ
  totalVolume : ℚ
  dominantSide : String
  dominance : ℚ
  priceChange : ℚ
  duration : ℚ
  tradeCount : Nat
  lastPrice : ℚ
deriving Repr, DecidableEq

/-- `SymbolState.getStats()` (lines 504-541): null when there are no trades
or the total volume is zero; otherwise sums buy/sell volumes, takes the
dominant side (`buy` only on strict majority, ties go to `sell`), the
dominance as the larger of the two percentage shares, the price change
relative to `firstPrice` (0 when `firstPrice` is null or 0: JS truthiness),
and the spanned duration in seconds. -/
def SymbolState.getStats (s : SymbolState) : Option Stats :=
  match s.trades with
  | [] => none
  | t0 :: _ =>
    let buyVolume := (s.trades.map Trade.buyVol).sum
    let sellVolume := (s.trades.map Trade.sellVol).sum
    let totalVolume := buyVolume + sellVolume
    if totalVolume = 0 then none
    else
      let buyDominance := buyVolume / totalVolume * 100
      let sellDominance := sellVolume / totalVolume * 100
      let dominantSide := if sellVolume < buyVolume then "buy" else "sell"
      let dominance := max buyDominance sellDominance
      let lastP := s.lastPrice.getD 0
      let priceChange : ℚ :=
        match s.firstPrice with
        | none => 0
        | some fp => if fp = 0 then 0 else (lastP - fp) / fp * 100
      let lastT := ((s.trades.getLast?).map Trade.timestamp).getD 0
      some
        { buyVolume := buyVolume
          sellVolume := sellVolume
          totalVolume := totalVolume
          dominantSide := dominantSide
          dominance := dominance
          priceChange := priceChange
          duration := ((lastT - t0.timestamp : Int) : ℚ) / 1000
          tradeCount := s.trades.length
          lastPrice := lastP }

/-- `SymbolState.reset()` (lines 543-547). -/
def SymbolState.reset (s : SymbolState) : SymbolState :=
  { s with trades := [], firstPrice := none, lastPrice := none }

/-- One raw trade event as fed into `addTrade` by the orchestrator. -/
structure TradeInput where
  timestamp : Int
  price : ℚ
  quantity : ℚ
  isBuyerMaker : Bool
deriving Repr, DecidableEq

/-- Feeding a sequence of trade events into a window state, one
`addTrade` per event. -/
def SymbolState.applyTrades (s : SymbolState) (inputs : List TradeInput) : SymbolState :=
  inputs.foldl (fun st i => st.addTrade i.timestamp i.price i.quantity i.isBuyerMaker) s

/-! ## OKX open-interest history lookup (lines 331-405) -/

/-- One history entry `{ts, oi, price}` as pushed by `addToHistory`
(line 337).  Entries are only appended when both values are non-null, so
both are plain rationals here. -/
structure OIPoint where
  ts : Int
  oi : ℚ
  price : ℚ
deriving Repr, DecidableEq

/-- The record returned by `OKXOpenInterestTracker.getOIStats`
(lines 375-385 and 394-404).  `oi5mAgo`, `oiDelta`, `oiDeltaPct`,
`price5mAgo` and `priceDeltaPct` are null exactly when no sufficiently old
history point exists. -/
structure OIStatsRec where
  oiNow : ℚ
  oi5mAgo : Option ℚ
  oiDeltaPct : Option ℚ
  oiDelta : Option ℚ
  priceNow : ℚ
  price5mAgo : Option ℚ
  priceDeltaPct : Option ℚ
  hasWindowData : Bool
  historyCount : Nat
deriving Repr, DecidableEq

/-- `OKXOpenInterestTracker.getOIStats(binanceSymbol)` (lines 345-405),
as a function of the symbol's history list (time-ordered, oldest first),
the wall-clock query time `now` (the code reads `Date.now()`, line 353)
and the analysis window `windowMs`.  Null when the history is empty;
otherwise the last history entry supplies the `now` values, and the scan
from the newest entry backwards finds the first entry with
`ts <= now - windowMs` as the `past` values (lines 365-371). -/
def getOIStats (history : List OIPoint) (now : Int) (windowMs : Int) : Option OIStatsRec :=
  match history.getLast? with
  | none => none
  | some latest =>
    let windowAgoTime := now - windowMs
    let oiNow := latest.oi
    let priceNow := latest.price
    match history.reverse.find? (fun p => p.ts ≤ windowAgoTime) with
    | none =>
      some
        { oiNow := oiNow
          oi5mAgo := none
          oiDeltaPct := none
          oiDelta := none
          priceNow := priceNow
          price5mAgo := none
          priceDeltaPct := none
          hasWindowData := false
          historyCount := history.length }
    | some past =>
      let oiDelta := oiNow - past.oi
      let oiDeltaPct := oiDelta / past.oi * 100
      let priceDelta := priceNow - past.price
      let priceDeltaPct := priceDelta / past.price * 100
      some
        { oiNow := oiNow
          oi5mAgo := some past.oi
          oiDeltaPct := some oiDeltaPct
          oiDelta := some oiDelta
          priceNow := priceNow
          price5mAgo := some past.price
          priceDeltaPct := some priceDeltaPct
          hasWindowData := true
          historyCount := history.length }

/-! ## Signal interpreter (`SignalEngine.interpretSignal`, lines 622-813) -/

/-- The interpretation record (logic-bearing fields of the object built at
lines 640-655, 702-717 and 797-812).  `decision` takes the literal string
values of the code: `"NO_OI_DATA"`, `"BASE"`, `"CONTINUATION"`,
`"BOUNCE"`, `"INCONCLUSIVE"`. -/
structure Interpretation where
  flowDirection : String
  finalDirection : String
  oiOverride : Bool
  decision : String
  oiUsed : Bool
  oiDeltaPassed : Bool
  oiPricePassed : Bool
deriving Repr, DecidableEq

/-- Base direction of lines 626-636: dominant side `"buy"` gives `"LONG"`,
anything else gives `"SHORT"`. -/
def baseDirection (stats : Stats) : String :=
  if stats.dominantSide = "buy" then "LONG" else "SHORT"

/-- The record returned when OI is unavailable (lines 640-655). -/
def noOIInterpretation (flowDirection : String) : Interpretation :=
  { flowDirection := flowDirection
    finalDirection := flowDirection
    oiOverride := false
    decision := "NO_OI_DATA"
    oiUsed := false
    oiDeltaPassed := false
    oiPricePassed := false }

/-- `SignalEngine.interpretSignal(stats, oiStats)` (lines 622-813).
`oiEnabled` models `CONFIG.OI_ENABLED`, `hasTracker` models
`this.oiTracker !== null`, and the two gate thresholds
`CONFIG.OI_MIN_DELTA_PERCENT` / `CONFIG.OI_MIN_PRICE_CHANGE_PERCENT` are
explicit parameters.  When the no-OI guard of line 639 fails, the null
checks already passed, so `oiDeltaPct`/`priceDeltaPct` are non-null in
every record `getOIStats` can produce; `Option.getD 0` matches the JS
coercion of `null` to 0 in the arithmetic comparisons. -/
def interpretSignal (oiEnabled hasTracker : Bool) (minOIDelta minPriceChange : ℚ)
    (stats : Stats) (oiStats : Option OIStatsRec) : Interpretation :=
  let flowDirection := baseDirection stats
  match oiStats with
  | none => noOIInterpretation flowDirection
  | some oi =>
    if !oiEnabled || !hasTracker || !oi.hasWindowData then
      noOIInterpretation flowDirection
    else
      let oiDeltaPct := oi.oiDeltaPct.getD 0
      let priceDeltaPct := oi.priceDeltaPct.getD 0
      let oiDeltaPassed : Bool := decide (minOIDelta ≤ |oiDeltaPct|)
      let oiPricePassed : Bool := decide (minPriceChange ≤ |priceDeltaPct|)
      let oiUsed : Bool := oiDeltaPassed && oiPricePassed
      if !oiUsed then
        { flowDirection := flowDirection
          finalDirection := flowDirection
          oiOverride := false
          decision := "BASE"
          oiUsed := false
          oiDeltaPassed := oiDeltaPassed
          oiPricePassed := oiPricePassed }
      else
        let priceRising : Bool := decide (PRICE_THRESHOLD < priceDeltaPct)
        let priceFalling : Bool := decide (priceDeltaPct < -PRICE_THRESHOLD)
        let oiRising : Bool := decide (OI_THRESHOLD < oiDeltaPct)
        let oiFalling : Bool := decide (oiDeltaPct < -OI_THRESHOLD)
        if priceFalling && oiRising then
          { flowDirection := flowDirection
            finalDirection := "SHORT"
            oiOverride := decide (flowDirection = "LONG")
            decision := "CONTINUATION"
            oiUsed := oiUsed
            oiDeltaPassed := oiDeltaPassed
            oiPricePassed := oiPricePassed }
        else if priceFalling && oiFalling then
          { flowDirection := flowDirection
            finalDirection := "LONG"
            oiOverride := decide (flowDirection = "SHORT")
            decision := "BOUNCE"
            oiUsed := oiUsed
            oiDeltaPassed := oiDeltaPassed
            oiPricePassed := oiPricePassed }
        else if priceRising && oiRising then
          { flowDirection := flowDirection
            finalDirection := "LONG"
            oiOverride := decide (flowDirection = "SHORT")
            decision := "CONTINUATION"
            oiUsed := oiUsed
            oiDeltaPassed := oiDeltaPassed
            oiPricePassed := oiPricePassed }
        else if priceRising && oiFalling then
          { flowDirection := flowDirection
            finalDirection := "SHORT"
            oiOverride := decide (flowDirection = "LONG")
            decision := "BOUNCE"
            oiUsed := oiUsed
            oiDeltaPassed := oiDeltaPassed
            oiPricePassed := oiPricePassed }
        else
          { flowDirection := flowDirection
            finalDirection := flowDirection
            oiOverride := false
            decision := "INCONCLUSIVE"
            oiUsed := oiUsed
            oiDeltaPassed := oiDeltaPassed
            oiPricePassed := oiPricePassed }

/-! ## Cooldown gate (`CooldownManager`, lines 820-860) -/

/-- The Map key built at lines 829 and 841. -/
def alertKey (symbol side : String) : String :=
  symbol ++ "_" ++ side

/-- `this.lastAlerts` as a lookup from key to last-alert timestamp. -/
abbrev CooldownMap : Type := String → Option Int

/-- The empty `lastAlerts` map (constructor, line 822). -/
def CooldownMap.empty : CooldownMap := fun _ => none

/-- `CooldownManager.canAlert(symbol, stats)` (lines 825-838) at clock
time `now` (the code reads `Date.now()`, line 835), with the symbol's
config passed explicitly (`CONFIG.getSymbolConfig` returns null for an
unknown symbol, in which case the gate answers false). -/
def canAlert (m : CooldownMap) (config : Option SymbolConfig)
    (symbol side : String) (now : Int) : Bool :=
  match config with
  | none => false
  | some c =>
    match m (alertKey symbol side) with
    | none => true
    | some lastTime =>
      let cooldownMs := c.cooldownMinutes * 60 * 1000
      decide (cooldownMs ≤ now - lastTime)

/-- `CooldownManager.recordAlert(symbol, stats)` (lines 840-843) at clock
time `now`. -/
def recordAlert (m : CooldownMap) (symbol side : String) (now : Int) : CooldownMap :=
  fun k => if k = alertKey symbol side then some now else m k

/-! ## Pending-alert scheduler (`AlertManager`, lines 866-982) -/

/-- The `alertData` object stored per pending key (lines 890-896). -/
structure AlertData where
  symbol : String
  stats : Stats
  interpretation : Interpretation
  oiStats : Option OIStatsRec
  timestamp : Int
deriving Repr, DecidableEq

/-- `this.pendingAlerts`: a JS `Map`, i.e. an insertion-ordered list of
key/value entries with unique keys. -/
abbrev PendingAlerts : Type := List (String × AlertData)

/-- `Map.has(key)` on the pending set. -/
def PendingAlerts.hasKey (m : PendingAlerts) (key : String) : Bool :=
  m.any (fun e => e.1 = key)

/-- `Map.get(key)` on the pending set (first matching entry). -/
def PendingAlerts.lookup (m : PendingAlerts) (key : String) : Option AlertData :=
  (m.find? (fun e => e.1 = key)).map Prod.snd

/-- `AlertManager.sendAlert(symbol, stats, interpretation, oiStats)`
(lines 889-907): build the alert data, key it by
`symbol + "_" + dominantSide`, and store it only if no candidate for that
key is already pending (line 900); otherwise the new candidate is dropped. -/
def PendingAlerts.sendAlert (m : PendingAlerts) (symbol : String) (stats : Stats)
    (interpretation : Interpretation) (oiStats : Option OIStatsRec)
    (now : Int) : PendingAlerts :=
  let alertData : AlertData :=
    { symbol := symbol
      stats := stats
      interpretation := interpretation
      oiStats := oiStats
      timestamp := now }
  let key := alertKey symbol stats.dominantSide
  if m.hasKey key then m else m ++ [(key, alertData)]

/-- Outcome of one `flushPendingAlerts()` call (lines 963-982):
`delivered` are the candidates whose `sendTelegramMessage` resolved,
`failed` those whose send threw (caught at line 976, only logged), and
`pending` the pending set after the flush. -/
structure FlushResult where
  delivered : List (String × AlertData)
  failed : List (String × AlertData)
  pending : PendingAlerts
deriving Repr, DecidableEq

/-- `AlertManager.flushPendingAlerts()` (lines 963-982) with the
notification sink abstracted as the predicate `sendOk` (true when the
`await sendTelegramMessage` resolves, false when it throws).  The loop
visits every entry in order; a throw is caught inside the loop body, so
iteration continues; afterwards `this.pendingAlerts.clear()` empties the
set unconditionally. -/
def flushPendingAlerts (m : PendingAlerts) (sendOk : AlertData → Bool) : FlushResult :=
  let step := fun (acc : List (String × AlertData) × List (String × AlertData))
      (e : String × AlertData) =>
    if sendOk e.2 then (acc.1 ++ [e], acc.2) else (acc.1, acc.2 ++ [e])
  let r := m.foldl step ([], [])
  { delivered := r.1
    failed := r.2
    pending := [] }

/-! ## Concrete example inputs (for evaluating the embedded operations) -/

/-- A concrete stats record: 70% buy dominance over $1M volume. -/
def statsEx : Stats :=
  { buyVolume := 700000
    sellVolume := 300000
    totalVolume := 1000000
    dominantSide := "buy"
    dominance := 70
    priceChange := 1
    duration := 60
    tradeCount := 50
    lastPrice := 100 }

/-- A concrete OI record with window data, OI delta 0.5% and price delta
1% (spec §8's gate-threshold example). -/
def oiGateFailEx : OIStatsRec :=
  { oiNow := 100
    oi5mAgo := some (1990/20)
    oiDeltaPct := some (1/2)
    oiDelta := some (1/2)
    priceNow := 101
    price5mAgo := some 100
    priceDeltaPct := some 1
    hasWindowData := true
    historyCount := 10 }

/-- A concrete OI record that passes both default gate thresholds: price
falling 1%, OI rising 1%. -/
def oiPassEx : OIStatsRec :=
  { oiNow := 101
    oi5mAgo := some 100
    oiDeltaPct := some 1
    oiDelta := some 1
    priceNow := 99
    price5mAgo := some 100
    priceDeltaPct := some (-1)
    hasWindowData := true
    historyCount := 10 }

/-- The two-point OI history of spec §8: t=0s (oi=100, price=10) and
t=300s (oi=110, price=10.5). -/
def histEx : List OIPoint :=
  [{ ts := 0, oi := 100, price := 10 }, { ts := 300000, oi := 110, price := 21/2 }]

/-- A window state holding one trade at t=0 (180-second window). -/
def oneTradeState : SymbolState :=
  (SymbolState.init "ADAUSDT" 180).addTrade 0 100 1 false

/-- A concrete pending alert candidate. -/
def alertEx : AlertData :=
  { symbol := "ADAUSDT"
    stats := statsEx
    interpretation := noOIInterpretation "LONG"
    oiStats := none
    timestamp := 0 }

/-- Two concrete trade events inside one window: an aggressive buy of
$100 at t=0 and an aggressive sell of $300 at t=1s. -/
def tradeInputsEx : List TradeInput :=
  [{ timestamp := 0, price := 100, quantity := 1, isBuyerMaker := false },
   { timestamp := 1000, price := 100, quantity := 3, isBuyerMaker := true }]

/-- The stats record `getStats` produces for `tradeInputsEx`. -/
def statsOutEx : Stats :=
  { buyVolume := 100
    sellVolume := 300
    totalVolume := 400
    dominantSide := "sell"
    dominance := 75
    priceChange := 0
    duration := 1
    tradeCount := 2
    lastPrice := 100 }

/-! # Theorems -/

/-! ## Helper lemmas -/

theorem foldl_send_partition (sendOk : AlertData → Bool) (m : PendingAlerts) :
    ∀ (d f : List (String × AlertData)),
      m.foldl
        (fun acc e => if sendOk e.2 then (acc.1 ++ [e], acc.2) else (acc.1, acc.2 ++ [e]))
        (d, f)
      = (d ++ m.filter (fun e => sendOk e.2), f ++ m.filter (fun e => !sendOk e.2)) := by
  induction m with
  | nil => intro d f; simp
  | cons e t ih =>
    intro d f
    by_cases h : sendOk e.2
    · simp [h, ih, List.filter_cons]
    · simp [h, ih, List.filter_cons]

theorem flushPendingAlerts_eq (m : PendingAlerts) (sendOk : AlertData → Bool) :
    flushPendingAlerts m sendOk =
      { delivered := m.filter (fun e => sendOk e.2)
        failed := m.filter (fun e => !sendOk e.2)
        pending := [] } := by
  simp only [flushPendingAlerts]
  rw [foldl_send_partition]
  simp

theorem hasKey_false_forall {m : PendingAlerts} {key : String}
    (h : m.hasKey key = false) : ∀ e ∈ m, ¬ e.1 = key := by
  intro e he hk
  have htrue : m.hasKey key = true := by
    simp only [PendingAlerts.hasKey, List.any_eq_true]
    exact ⟨e, he, by simp [hk]⟩
  rw [h] at htrue
  simp at htrue

theorem alertKey_side_inj {symbol a b : String}
    (h : alertKey symbol a = alertKey symbol b) : a = b := by
  have h2 := congrArg String.data h
  simp only [alertKey, String.data_append] at h2
  exact String.ext (List.append_cancel_left h2)

/-! ## C7 — cooldown gate -/

/-- C7: for every instrument and side, `canAlert` answers true iff no prior
emission is recorded for that `(instrument, side)` key or the elapsed time
since the last recorded emission is at least the instrument's configured
cooldown (`cooldownMinutes * 60 * 1000` ms); after `recordAlert(X, "buy")`
at time `tRec`, `canAlert(X, "buy")` stays false exactly until the cooldown
elapses, while `canAlert(X, "sell")` is unchanged. -/
theorem canAlert_cooldown_gate (m : CooldownMap) (c : SymbolConfig)
    (symbol side : String) (tRec tQ now : Int) :
    (canAlert m (some c) symbol side now = true ↔
       (m (alertKey symbol side) = none ∨
        ∃ t, m (alertKey symbol side) = some t ∧
          c.cooldownMinutes * 60 * 1000 ≤ now - t)) ∧
    (canAlert (recordAlert m symbol "buy" tRec) (some c) symbol "buy" tQ = true ↔
       c.cooldownMinutes * 60 * 1000 ≤ tQ - tRec) ∧
    canAlert (recordAlert m symbol "buy" tRec) (some c) symbol "sell" tQ =
      canAlert m (some c) symbol "sell" tQ := by
  have hne : alertKey symbol "sell" ≠ alertKey symbol "buy" := by
    intro h
    exact absurd (alertKey_side_inj h) (by decide)
  refine ⟨?_, ?_, ?_⟩
  · cases hm : m (alertKey symbol side) with
    | none => simp [canAlert, hm]
    | some t =>
      simp only [canAlert, hm, decide_eq_true_eq]
      constructor
      · intro h
        exact Or.inr ⟨t, rfl, h⟩
      · rintro (h | ⟨t', ht', h⟩)
        · exact absurd h (by simp)
        · cases ht'
          exact h
  · simp [canAlert, recordAlert, decide_eq_true_eq]
  · simp [canAlert, recordAlert, hne]

/-! ## C8 — scheduler admits at most one candidate per key -/

/-- C8: admitting a second candidate for a key that is already pending
leaves the pending set unchanged (the new candidate is dropped), the stored
candidate is the first one and it is the only entry under that key; and
flushing an empty pending set delivers nothing, leaves the pending set
empty, and can be called again with the same (empty) outcome. -/
theorem sendAlert_admit_once_flush_empty (m : PendingAlerts) (symbol : String)
    (s1 s2 : Stats) (i1 i2 : Interpretation) (o1 o2 : Option OIStatsRec)
    (t1 t2 : Int) (sendOk : AlertData → Bool)
    (hside : s2.dominantSide = s1.dominantSide)
    (hfree : m.hasKey (alertKey symbol s1.dominantSide) = false) :
    ((m.sendAlert symbol s1 i1 o1 t1).sendAlert symbol s2 i2 o2 t2 =
       m.sendAlert symbol s1 i1 o1 t1) ∧
    (m.sendAlert symbol s1 i1 o1 t1).lookup (alertKey symbol s1.dominantSide) =
      some { symbol := symbol, stats := s1, interpretation := i1,
             oiStats := o1, timestamp := t1 } ∧
    ((m.sendAlert symbol s1 i1 o1 t1).filter
        (fun e => e.1 = alertKey symbol s1.dominantSide)).length = 1 ∧
    flushPendingAlerts [] sendOk = ⟨[], [], []⟩ ∧
    flushPendingAlerts (flushPendingAlerts [] sendOk).pending sendOk = ⟨[], [], []⟩ := by
  have hall := hasKey_false_forall hfree
  have hm1 : m.sendAlert symbol s1 i1 o1 t1 =
      m ++ [(alertKey symbol s1.dominantSide,
             { symbol := symbol, stats := s1, interpretation := i1,
               oiStats := o1, timestamp := t1 })] := by
    simp [PendingAlerts.sendAlert, hfree]
  have hhas : (m ++ [(alertKey symbol s1.dominantSide,
      ({ symbol := symbol, stats := s1, interpretation := i1,
         oiStats := o1, timestamp := t1 } : AlertData))]).hasKey
      (alertKey symbol s1.dominantSide) = true := by
    simp [PendingAlerts.hasKey]
  refine ⟨?_, ?_, ?_, ?_, ?_⟩
  · rw [hm1]
    simp only [PendingAlerts.sendAlert, hside]
    rw [if_pos]
    exact hhas
  · rw [hm1]
    simp only [PendingAlerts.lookup, List.find?_append]
    have hfnone : m.find? (fun e => e.1 = alertKey symbol s1.dominantSide) = none := by
      rw [List.find?_eq_none]
      intro x hx
      simpa using hall x hx
    simp [hfnone]
  · rw [hm1, List.filter_append]
    have hfnil : m.filter (fun e => e.1 = alertKey symbol s1.dominantSide) = [] := by
      rw [List.filter_eq_nil_iff]
      intro a ha
      simpa using hall a ha
    simp [hfnil]
  · rw [flushPendingAlerts_eq]; rfl
  · rw [flushPendingAlerts_eq, flushPendingAlerts_eq]; rfl

/-- Witness for C8 at a concrete input: a second candidate for
`ADAUSDT_buy` is dropped. -/
theorem sendAlert_admit_once_flush_empty_witness :
    PendingAlerts.sendAlert
        (PendingAlerts.sendAlert [] "ADAUSDT" statsEx (noOIInterpretation "LONG") none 0)
        "ADAUSDT" statsEx (noOIInterpretation "LONG") none 5 =
      PendingAlerts.sendAlert [] "ADAUSDT" statsEx (noOIInterpretation "LONG") none 0 :=
  (sendAlert_admit_once_flush_empty [] "ADAUSDT" statsEx statsEx
    (noOIInterpretation "LONG") (noOIInterpretation "LONG") none none 0 5
    (fun _ => true) rfl rfl).1

/-! ## C9 — flush isolates delivery failures -/

/-- C9: for every pending set and every outcome of the notification sends,
a flush delivers exactly the candidates whose send succeeded (a failure for
one candidate never blocks the others), the failed candidates are only
logged, and the pending set is empty afterwards regardless of which sends
failed — at-most-once delivery with no re-queue. -/
theorem flush_failure_isolation (m : PendingAlerts) (sendOk : AlertData → Bool) :
    (flushPendingAlerts m sendOk).pending = [] ∧
    (flushPendingAlerts m sendOk).delivered = m.filter (fun e => sendOk e.2) ∧
    (flushPendingAlerts m sendOk).failed = m.filter (fun e => !sendOk e.2) := by
  rw [flushPendingAlerts_eq]
  exact ⟨rfl, rfl, rfl⟩

/-! ## Evaluation lemmas for the signal interpreter -/

theorem interpretSignal_none_eq (oiE hT : Bool) (minD minP : ℚ) (stats : Stats) :
    interpretSignal oiE hT minD minP stats none =
      noOIInterpretation (baseDirection stats) := by
  rfl

theorem interpretSignal_guard_eq (oiE hT : Bool) (minD minP : ℚ) (stats : Stats)
    (oi : OIStatsRec) (hguard : (!oiE || !hT || !oi.hasWindowData) = true) :
    interpretSignal oiE hT minD minP stats (some oi) =
      noOIInterpretation (baseDirection stats) := by
  simp only [interpretSignal, hguard, if_true]

theorem interpretSignal_gateFail_eq (minD minP : ℚ) (stats : Stats) (oi : OIStatsRec)
    (hwd : oi.hasWindowData = true)
    (hfail : ¬(minD ≤ |oi.oiDeltaPct.getD 0| ∧ minP ≤ |oi.priceDeltaPct.getD 0|)) :
    interpretSignal true true minD minP stats (some oi) =
      { flowDirection := baseDirection stats
        finalDirection := baseDirection stats
        oiOverride := false
        decision := "BASE"
        oiUsed := false
        oiDeltaPassed := decide (minD ≤ |oi.oiDeltaPct.getD 0|)
        oiPricePassed := decide (minP ≤ |oi.priceDeltaPct.getD 0|) } := by
  have hb : (decide (minD ≤ |oi.oiDeltaPct.getD 0|) &&
      decide (minP ≤ |oi.priceDeltaPct.getD 0|)) = false := by
    cases hab : (decide (minD ≤ |oi.oiDeltaPct.getD 0|) &&
        decide (minP ≤ |oi.priceDeltaPct.getD 0|)) with
    | false => rfl
    | true =>
      rw [Bool.and_eq_true, decide_eq_true_eq, decide_eq_true_eq] at hab
      exact absurd hab hfail
  simp only [interpretSignal, hwd, hb, Bool.not_true, Bool.or_self, Bool.or_false,
    Bool.false_or, Bool.not_false, if_true, if_false, ite_false, ite_true]
  rfl

theorem interpretSignal_pass_eq (minD minP : ℚ) (stats : Stats) (oi : OIStatsRec)
    (hwd : oi.hasWindowData = true)
    (hd : minD ≤ |oi.oiDeltaPct.getD 0|) (hp : minP ≤ |oi.priceDeltaPct.getD 0|) :
    interpretSignal true true minD minP stats (some oi) =
      (if (oi.priceDeltaPct.getD 0 < -PRICE_THRESHOLD ∧
            OI_THRESHOLD < oi.oiDeltaPct.getD 0) then
         { flowDirection := baseDirection stats, finalDirection := "SHORT",
           oiOverride := decide (baseDirection stats = "LONG"),
           decision := "CONTINUATION", oiUsed := true,
           oiDeltaPassed := true, oiPricePassed := true }
       else if (oi.priceDeltaPct.getD 0 < -PRICE_THRESHOLD ∧
            oi.oiDeltaPct.getD 0 < -OI_THRESHOLD) then
         { flowDirection := baseDirection stats, finalDirection := "LONG",
           oiOverride := decide (baseDirection stats = "SHORT"),
           decision := "BOUNCE", oiUsed := true,
           oiDeltaPassed := true, oiPricePassed := true }
       else if (PRICE_THRESHOLD < oi.priceDeltaPct.getD 0 ∧
            OI_THRESHOLD < oi.oiDeltaPct.getD 0) then
         { flowDirection := baseDirection stats, finalDirection := "LONG",
           oiOverride := decide (baseDirection stats = "SHORT"),
           decision := "CONTINUATION", oiUsed := true,
           oiDeltaPassed := true, oiPricePassed := true }
       else if (PRICE_THRESHOLD < oi.priceDeltaPct.getD 0 ∧
            oi.oiDeltaPct.getD 0 < -OI_THRESHOLD) then
         { flowDirection := baseDirection stats, finalDirection := "SHORT",
           oiOverride := decide (baseDirection stats = "LONG"),
           decision := "BOUNCE", oiUsed := true,
           oiDeltaPassed := true, oiPricePassed := true }
       else
         { flowDirection := baseDirection stats, finalDirection := baseDirection stats,
           oiOverride := false, decision := "INCONCLUSIVE", oiUsed := true,
           oiDeltaPassed := true, oiPricePassed := true }) := by
  simp only [interpretSignal, hwd, hd, hp, Bool.not_true, Bool.or_self, Bool.or_false,
    Bool.false_or, Bool.not_false, decide_true_eq_true, decide_True, Bool.and_self,
    if_true, if_false, ite_false, ite_true, Bool.and_eq_true, decide_eq_true_eq]
  rfl

/-! ## C1 — quadrant decision table -/

/-- C1: for every stats record and every OI snapshot that passes the
threshold gate, `interpretSignal` decides by the quadrant table — price
falling with OI rising gives SHORT/CONTINUATION, falling/falling gives
LONG/BOUNCE, rising/rising gives LONG/CONTINUATION, rising/falling gives
SHORT/BOUNCE; when neither movement is significant the base direction is
kept with decision INCONCLUSIVE; and the override flag is set iff the
final direction differs from the base direction. -/
theorem interpretSignal_quadrant_table (minD minP : ℚ) (stats : Stats)
    (oi : OIStatsRec) (r : Interpretation) (d p : ℚ)
    (hr : r = interpretSignal true true minD minP stats (some oi))
    (hdq : d = oi.oiDeltaPct.getD 0) (hpq : p = oi.priceDeltaPct.getD 0)
    (hwd : oi.hasWindowData = true)
    (hd : minD ≤ |d|) (hp : minP ≤ |p|) :
    r.oiUsed = true ∧
    (p < -PRICE_THRESHOLD → OI_THRESHOLD < d →
       r.finalDirection = "SHORT" ∧ r.decision = "CONTINUATION") ∧
    (p < -PRICE_THRESHOLD → d < -OI_THRESHOLD →
       r.finalDirection = "LONG" ∧ r.decision = "BOUNCE") ∧
    (PRICE_THRESHOLD < p → OI_THRESHOLD < d →
       r.finalDirection = "LONG" ∧ r.decision = "CONTINUATION") ∧
    (PRICE_THRESHOLD < p → d < -OI_THRESHOLD →
       r.finalDirection = "SHORT" ∧ r.decision = "BOUNCE") ∧
    (¬PRICE_THRESHOLD < p → ¬p < -PRICE_THRESHOLD → ¬OI_THRESHOLD < d →
       ¬d < -OI_THRESHOLD →
       r.finalDirection = baseDirection stats ∧ r.decision = "INCONCLUSIVE") ∧
    r.flowDirection = baseDirection stats ∧
    (r.oiOverride = true ↔ r.finalDirection ≠ r.flowDirection) := by
  subst hdq hpq
  rw [interpretSignal_pass_eq minD minP stats oi hwd hd hp] at hr
  subst hr
  have hbase : baseDirection stats = "LONG" ∨ baseDirection stats = "SHORT" := by
    unfold baseDirection
    by_cases hb : stats.dominantSide = "buy" <;> simp [hb]
  refine ⟨?_, ?_, ?_, ?_, ?_, ?_, ?_, ?_⟩
  · split <;> (try split) <;> (try split) <;> (try split) <;> rfl
  · intro h1 h2
    rw [if_pos ⟨h1, h2⟩]
    exact ⟨rfl, rfl⟩
  · intro h1 h2
    have hn : ¬(oi.priceDeltaPct.getD 0 < -PRICE_THRESHOLD ∧
        OI_THRESHOLD < oi.oiDeltaPct.getD 0) := by
      rintro ⟨-, h⟩
      have : OI_THRESHOLD < -OI_THRESHOLD := h.trans h2
      rw [OI_THRESHOLD] at this
      norm_num at this
    rw [if_neg hn, if_pos ⟨h1, h2⟩]
    exact ⟨rfl, rfl⟩
  · intro h1 h2
    have hnp : ¬oi.priceDeltaPct.getD 0 < -PRICE_THRESHOLD := by
      intro h
      have : PRICE_THRESHOLD < -PRICE_THRESHOLD := h1.trans h
      rw [PRICE_THRESHOLD] at this
      norm_num at this
    rw [if_neg (fun h => hnp h.1), if_neg (fun h => hnp h.1), if_pos ⟨h1, h2⟩]
    exact ⟨rfl, rfl⟩
  · intro h1 h2
    have hnp : ¬oi.priceDeltaPct.getD 0 < -PRICE_THRESHOLD := by
      intro h
      have : PRICE_THRESHOLD < -PRICE_THRESHOLD := h1.trans h
      rw [PRICE_THRESHOLD] at this
      norm_num at this
    have hno : ¬OI_THRESHOLD < oi.oiDeltaPct.getD 0 := by
      intro h
      have : OI_THRESHOLD < -OI_THRESHOLD := h.trans h2
      rw [OI_THRESHOLD] at this
      norm_num at this
    rw [if_neg (fun h => hnp h.1), if_neg (fun h => hnp h.1),
      if_neg (fun h => hno h.2), if_pos ⟨h1, h2⟩]
    exact ⟨rfl, rfl⟩
  · intro h1 h2 h3 h4
    rw [if_neg (fun h => h2 h.1), if_neg (fun h => h2 h.1),
      if_neg (fun h => h1 h.1), if_neg (fun h => h1 h.1)]
    exact ⟨rfl, rfl⟩
  · split <;> (try split) <;> (try split) <;> (try split) <;> rfl
  · rcases hbase with hb | hb <;>
      (split <;> (try split) <;> (try split) <;> (try split) <;> simp [hb])

/-- Witness for C1: price falling 1% with OI rising 1% under the default
gate thresholds yields SHORT / CONTINUATION, overriding the LONG base of a
buy-dominant stats record. -/
theorem interpretSignal_quadrant_table_witness :
    (interpretSignal true true OI_MIN_DELTA_PERCENT OI_MIN_PRICE_CHANGE_PERCENT
        statsEx (some oiPassEx)).finalDirection = "SHORT" ∧
    (interpretSignal true true OI_MIN_DELTA_PERCENT OI_MIN_PRICE_CHANGE_PERCENT
        statsEx (some oiPassEx)).decision = "CONTINUATION" ∧
    (interpretSignal true true OI_MIN_DELTA_PERCENT OI_MIN_PRICE_CHANGE_PERCENT
        statsEx (some oiPassEx)).oiOverride = true := by
  have h := interpretSignal_quadrant_table OI_MIN_DELTA_PERCENT
    OI_MIN_PRICE_CHANGE_PERCENT statsEx oiPassEx
    (interpretSignal true true OI_MIN_DELTA_PERCENT OI_MIN_PRICE_CHANGE_PERCENT
      statsEx (some oiPassEx))
    (oiPassEx.oiDeltaPct.getD 0) (oiPassEx.priceDeltaPct.getD 0)
    rfl rfl rfl rfl (by norm_num [oiPassEx, OI_MIN_DELTA_PERCENT])
    (by norm_num [oiPassEx, OI_MIN_PRICE_CHANGE_PERCENT])
  obtain ⟨-, hA, -, -, -, -, hflow, hiff⟩ := h
  obtain ⟨hfin, hdec⟩ := hA
    (by norm_num [oiPassEx, PRICE_THRESHOLD])
    (by norm_num [oiPassEx, OI_THRESHOLD])
  refine ⟨hfin, hdec, hiff.mpr ?_⟩
  rw [hfin, hflow]
  simp [baseDirection, statsEx]

/-! ## C2 — no-OI fallback -/

/-- Counterexample to C2 as stated: with OI enabled but no snapshot, the
interpreter on a buy-dominant stats record does return the base direction
LONG with `oiUsed = false`, but its decision field is the string
`"NO_OI_DATA"`, not `"BASE"` (the code only uses `"BASE"` for the
threshold-gate failure, src/index.js line 711; the no-OI branch sets
`"NO_OI_DATA"`, line 649). -/
theorem interpretSignal_no_oi_decision_cex :
    (interpretSignal true true OI_MIN_DELTA_PERCENT OI_MIN_PRICE_CHANGE_PERCENT
        statsEx none).finalDirection = "LONG" ∧
    (interpretSignal true true OI_MIN_DELTA_PERCENT OI_MIN_PRICE_CHANGE_PERCENT
        statsEx none).oiUsed = false ∧
    (interpretSignal true true OI_MIN_DELTA_PERCENT OI_MIN_PRICE_CHANGE_PERCENT
        statsEx none).decision = "NO_OI_DATA" ∧
    ¬(interpretSignal true true OI_MIN_DELTA_PERCENT OI_MIN_PRICE_CHANGE_PERCENT
        statsEx none).decision = "BASE" := by
  refine ⟨rfl, rfl, rfl, ?_⟩
  intro h
  simp [interpretSignal, noOIInterpretation, baseDirection, statsEx] at h

/-- C2 (amended): when OI is disabled, the tracker is absent, the snapshot
is absent, or the snapshot has no window data, `interpretSignal` returns
the base direction unchanged (buy dominance gives LONG, anything else
SHORT) with `oiUsed = false` — but the decision marker in this branch is
`"NO_OI_DATA"`, not `"BASE"`. -/
theorem interpretSignal_no_oi_base (oiE hT : Bool) (minD minP : ℚ)
    (stats : Stats) (oiStats : Option OIStatsRec)
    (hno : oiE = false ∨ hT = false ∨ oiStats = none ∨
      ∃ oi, oiStats = some oi ∧ oi.hasWindowData = false) :
    interpretSignal oiE hT minD minP stats oiStats =
      noOIInterpretation (baseDirection stats) ∧
    (interpretSignal oiE hT minD minP stats oiStats).finalDirection =
      baseDirection stats ∧
    (interpretSignal oiE hT minD minP stats oiStats).decision = "NO_OI_DATA" ∧
    (interpretSignal oiE hT minD minP stats oiStats).oiUsed = false ∧
    (stats.dominantSide = "buy" → baseDirection stats = "LONG") ∧
    (¬stats.dominantSide = "buy" → baseDirection stats = "SHORT") := by
  have hmain : interpretSignal oiE hT minD minP stats oiStats =
      noOIInterpretation (baseDirection stats) := by
    rcases hno with h | h | h | ⟨oi, hsome, hwd⟩
    · cases oiStats with
      | none => exact interpretSignal_none_eq oiE hT minD minP stats
      | some oi => exact interpretSignal_guard_eq oiE hT minD minP stats oi (by simp [h])
    · cases oiStats with
      | none => exact interpretSignal_none_eq oiE hT minD minP stats
      | some oi => exact interpretSignal_guard_eq oiE hT minD minP stats oi (by simp [h])
    · rw [h]
      exact interpretSignal_none_eq oiE hT minD minP stats
    · rw [hsome]
      exact interpretSignal_guard_eq oiE hT minD minP stats oi (by simp [hwd])
  refine ⟨hmain, ?_, ?_, ?_, ?_, ?_⟩
  · rw [hmain]; rfl
  · rw [hmain]; rfl
  · rw [hmain]; rfl
  · intro h; simp [baseDirection, h]
  · intro h; simp [baseDirection, h]

/-- Witness for C2 (amended) at a concrete input: snapshot absent, buy
dominance. -/
theorem interpretSignal_no_oi_base_witness :
    interpretSignal true true OI_MIN_DELTA_PERCENT OI_MIN_PRICE_CHANGE_PERCENT
        statsEx none = noOIInterpretation (baseDirection statsEx) ∧
    (interpretSignal true true OI_MIN_DELTA_PERCENT OI_MIN_PRICE_CHANGE_PERCENT
        statsEx none).decision = "NO_OI_DATA" :=
  ⟨(interpretSignal_no_oi_base true true OI_MIN_DELTA_PERCENT
      OI_MIN_PRICE_CHANGE_PERCENT statsEx none (Or.inr (Or.inr (Or.inl rfl)))).1,
   (interpretSignal_no_oi_base true true OI_MIN_DELTA_PERCENT
      OI_MIN_PRICE_CHANGE_PERCENT statsEx none (Or.inr (Or.inr (Or.inl rfl)))).2.2.1⟩

/-! ## C3 — OI threshold gate -/

/-- C3: with window data present, the OI quadrant logic is used iff both
gate thresholds pass (`|oiDeltaPct| >= minOIDeltaPercent` and
`|priceDeltaPct| >= minPriceDeltaPercent`); when either fails, the result
is the base direction with decision `"BASE"`, `oiUsed = false`, and the
`oiDeltaPassed` / `oiPricePassed` flags record which threshold(s)
failed. -/
theorem interpretSignal_threshold_gate (minD minP : ℚ) (stats : Stats)
    (oi : OIStatsRec) (r : Interpretation) (d p : ℚ)
    (hr : r = interpretSignal true true minD minP stats (some oi))
    (hdq : d = oi.oiDeltaPct.getD 0) (hpq : p = oi.priceDeltaPct.getD 0)
    (hwd : oi.hasWindowData = true) :
    (r.oiUsed = true ↔ (minD ≤ |d| ∧ minP ≤ |p|)) ∧
    (r.oiDeltaPassed = true ↔ minD ≤ |d|) ∧
    (r.oiPricePassed = true ↔ minP ≤ |p|) ∧
    (¬(minD ≤ |d| ∧ minP ≤ |p|) →
       r = { flowDirection := baseDirection stats
             finalDirection := baseDirection stats
             oiOverride := false
             decision := "BASE"
             oiUsed := false
             oiDeltaPassed := decide (minD ≤ |d|)
             oiPricePassed := decide (minP ≤ |p|) }) := by
  subst hdq hpq
  by_cases hgate : minD ≤ |oi.oiDeltaPct.getD 0| ∧ minP ≤ |oi.priceDeltaPct.getD 0|
  · obtain ⟨hd, hp⟩ := hgate
    rw [interpretSignal_pass_eq minD minP stats oi hwd hd hp] at hr
    subst hr
    refine ⟨?_, ?_, ?_, fun hc => absurd ⟨hd, hp⟩ hc⟩
    · split <;> (try split) <;> (try split) <;> (try split) <;> simp [hd, hp]
    · split <;> (try split) <;> (try split) <;> (try split) <;> simp [hd]
    · split <;> (try split) <;> (try split) <;> (try split) <;> simp [hp]
  · rw [interpretSignal_gateFail_eq minD minP stats oi hwd hgate] at hr
    subst hr
    refine ⟨?_, by simp, by simp, fun _ => rfl⟩
    constructor
    · intro h
      simp at h
    · intro h
      exact absurd h hgate

/-- Witness for C3 (spec §8's example): OI delta 0.5% with price delta 1%
under the default thresholds 0.6% / 0.35% fails the OI-delta threshold, so
`oiUsed = false` and the decision is `"BASE"` with `oiDeltaPassed = false`
and `oiPricePassed = true`. -/
theorem interpretSignal_threshold_gate_witness :
    (interpretSignal true true OI_MIN_DELTA_PERCENT OI_MIN_PRICE_CHANGE_PERCENT
        statsEx (some oiGateFailEx)).oiUsed = false ∧
    (interpretSignal true true OI_MIN_DELTA_PERCENT OI_MIN_PRICE_CHANGE_PERCENT
        statsEx (some oiGateFailEx)).decision = "BASE" ∧
    (interpretSignal true true OI_MIN_DELTA_PERCENT OI_MIN_PRICE_CHANGE_PERCENT
        statsEx (some oiGateFailEx)).oiDeltaPassed = false ∧
    (interpretSignal true true OI_MIN_DELTA_PERCENT OI_MIN_PRICE_CHANGE_PERCENT
        statsEx (some oiGateFailEx)).oiPricePassed = true := by
  have h := interpretSignal_threshold_gate OI_MIN_DELTA_PERCENT
    OI_MIN_PRICE_CHANGE_PERCENT statsEx oiGateFailEx
    (interpretSignal true true OI_MIN_DELTA_PERCENT OI_MIN_PRICE_CHANGE_PERCENT
      statsEx (some oiGateFailEx))
    (oiGateFailEx.oiDeltaPct.getD 0) (oiGateFailEx.priceDeltaPct.getD 0)
    rfl rfl rfl rfl
  obtain ⟨-, -, -, hfail⟩ := h
  have habsd : |oiGateFailEx.oiDeltaPct.getD 0| = 1/2 := by
    rw [show oiGateFailEx.oiDeltaPct.getD 0 = 1/2 from rfl]
    exact abs_of_nonneg (by norm_num)
  have habsp : |oiGateFailEx.priceDeltaPct.getD 0| = 1 := by
    rw [show oiGateFailEx.priceDeltaPct.getD 0 = 1 from rfl]
    exact abs_of_nonneg (by norm_num)
  have hrec := hfail (by
    rintro ⟨hd, -⟩
    rw [habsd, OI_MIN_DELTA_PERCENT] at hd
    norm_num at hd)
  rw [hrec]
  refine ⟨rfl, rfl, ?_, ?_⟩
  · simp only [decide_eq_false_iff_not]
    rw [habsd, OI_MIN_DELTA_PERCENT]
    norm_num
  · simp only [decide_eq_true_eq]
    rw [habsp, OI_MIN_PRICE_CHANGE_PERCENT]
    norm_num

/-! ## C10 — INCONCLUSIVE is unreachable under the default thresholds -/

/-- C10: under the default gate thresholds (0.6% OI delta, 0.35% price
delta), whenever the gate passes the significance thresholds (0.5% and
0.1%, strict) are forced too, so the decision is always CONTINUATION or
BOUNCE — the INCONCLUSIVE fallback cannot fire. -/
theorem interpretSignal_inconclusive_unreachable (stats : Stats)
    (oi : OIStatsRec) (d p : ℚ)
    (hdq : d = oi.oiDeltaPct.getD 0) (hpq : p = oi.priceDeltaPct.getD 0)
    (hwd : oi.hasWindowData = true)
    (hd : OI_MIN_DELTA_PERCENT ≤ |d|) (hp : OI_MIN_PRICE_CHANGE_PERCENT ≤ |p|) :
    (OI_THRESHOLD < d ∨ d < -OI_THRESHOLD) ∧
    (PRICE_THRESHOLD < p ∨ p < -PRICE_THRESHOLD) ∧
    (interpretSignal true true OI_MIN_DELTA_PERCENT OI_MIN_PRICE_CHANGE_PERCENT
        stats (some oi)).oiUsed = true ∧
    ((interpretSignal true true OI_MIN_DELTA_PERCENT OI_MIN_PRICE_CHANGE_PERCENT
        stats (some oi)).decision = "CONTINUATION" ∨
     (interpretSignal true true OI_MIN_DELTA_PERCENT OI_MIN_PRICE_CHANGE_PERCENT
        stats (some oi)).decision = "BOUNCE") := by
  subst hdq hpq
  have hdsig : OI_THRESHOLD < oi.oiDeltaPct.getD 0 ∨
      oi.oiDeltaPct.getD 0 < -OI_THRESHOLD := by
    rcases le_abs.mp hd with h | h
    · left
      calc OI_THRESHOLD < OI_MIN_DELTA_PERCENT := by
            rw [OI_THRESHOLD, OI_MIN_DELTA_PERCENT]; norm_num
        _ ≤ oi.oiDeltaPct.getD 0 := h
    · right
      have : OI_MIN_DELTA_PERCENT ≤ -oi.oiDeltaPct.getD 0 := h
      have h2 : oi.oiDeltaPct.getD 0 ≤ -OI_MIN_DELTA_PERCENT := by linarith
      calc oi.oiDeltaPct.getD 0 ≤ -OI_MIN_DELTA_PERCENT := h2
        _ < -OI_THRESHOLD := by rw [OI_THRESHOLD, OI_MIN_DELTA_PERCENT]; norm_num
  have hpsig : PRICE_THRESHOLD < oi.priceDeltaPct.getD 0 ∨
      oi.priceDeltaPct.getD 0 < -PRICE_THRESHOLD := by
    rcases le_abs.mp hp with h | h
    · left
      calc PRICE_THRESHOLD < OI_MIN_PRICE_CHANGE_PERCENT := by
            rw [PRICE_THRESHOLD, OI_MIN_PRICE_CHANGE_PERCENT]; norm_num
        _ ≤ oi.priceDeltaPct.getD 0 := h
    · right
      have h2 : oi.priceDeltaPct.getD 0 ≤ -OI_MIN_PRICE_CHANGE_PERCENT := by linarith
      calc oi.priceDeltaPct.getD 0 ≤ -OI_MIN_PRICE_CHANGE_PERCENT := h2
        _ < -PRICE_THRESHOLD := by
            rw [PRICE_THRESHOLD, OI_MIN_PRICE_CHANGE_PERCENT]; norm_num
  refine ⟨hdsig, hpsig, ?_, ?_⟩
  · rw [interpretSignal_pass_eq _ _ stats oi hwd hd hp]
    split <;> (try split) <;> (try split) <;> (try split) <;> rfl
  · rw [interpretSignal_pass_eq _ _ stats oi hwd hd hp]
    rcases hpsig with hpr | hpf
    · have hnpf : ¬oi.priceDeltaPct.getD 0 < -PRICE_THRESHOLD := by
        intro h
        have : PRICE_THRESHOLD < -PRICE_THRESHOLD := hpr.trans h
        rw [PRICE_THRESHOLD] at this
        norm_num at this
      rcases hdsig with hor | hof
      · rw [if_neg (fun h => hnpf h.1), if_neg (fun h => hnpf h.1),
          if_pos ⟨hpr, hor⟩]
        exact Or.inl rfl
      · have hno : ¬OI_THRESHOLD < oi.oiDeltaPct.getD 0 := by
          intro h
          have : OI_THRESHOLD < -OI_THRESHOLD := h.trans hof
          rw [OI_THRESHOLD] at this
          norm_num at this
        rw [if_neg (fun h => hnpf h.1), if_neg (fun h => hnpf h.1),
          if_neg (fun h => hno h.2), if_pos ⟨hpr, hof⟩]
        exact Or.inr rfl
    · rcases hdsig with hor | hof
      · rw [if_pos ⟨hpf, hor⟩]
        exact Or.inl rfl
      · have hno : ¬OI_THRESHOLD < oi.oiDeltaPct.getD 0 := by
          intro h
          have : OI_THRESHOLD < -OI_THRESHOLD := h.trans hof
          rw [OI_THRESHOLD] at this
          norm_num at this
        rw [if_neg (fun h => hno h.2), if_pos ⟨hpf, hof⟩]
        exact Or.inr rfl

/-- Witness for C10: OI rising 1%, price falling 1% (both past the default
gate) ends in CONTINUATION, not INCONCLUSIVE. -/
theorem interpretSignal_inconclusive_unreachable_witness :
    (interpretSignal true true OI_MIN_DELTA_PERCENT OI_MIN_PRICE_CHANGE_PERCENT
        statsEx (some oiPassEx)).oiUsed = true ∧
    ((interpretSignal true true OI_MIN_DELTA_PERCENT OI_MIN_PRICE_CHANGE_PERCENT
        statsEx (some oiPassEx)).decision = "CONTINUATION" ∨
     (interpretSignal true true OI_MIN_DELTA_PERCENT OI_MIN_PRICE_CHANGE_PERCENT
        statsEx (some oiPassEx)).decision = "BOUNCE") :=
  ⟨(interpretSignal_inconclusive_unreachable statsEx oiPassEx
      (oiPassEx.oiDeltaPct.getD 0) (oiPassEx.priceDeltaPct.getD 0) rfl rfl rfl
      (by norm_num [oiPassEx, OI_MIN_DELTA_PERCENT])
      (by norm_num [oiPassEx, OI_MIN_PRICE_CHANGE_PERCENT])).2.2.1,
   (interpretSignal_inconclusive_unreachable statsEx oiPassEx
      (oiPassEx.oiDeltaPct.getD 0) (oiPassEx.priceDeltaPct.getD 0) rfl rfl rfl
      (by norm_num [oiPassEx, OI_MIN_DELTA_PERCENT])
      (by norm_num [oiPassEx, OI_MIN_PRICE_CHANGE_PERCENT])).2.2.2⟩

/-! ## C4 — pruning and `getStats` -/

theorem getStats_nil (s : SymbolState) (h : s.trades = []) : s.getStats = none := by
  obtain ⟨sym, w, tr, fp, lp⟩ := s
  simp only at h
  subst h
  rfl

theorem getStats_ne_none_of (s : SymbolState) (hne : ¬s.trades = [])
    (htot : ¬(s.trades.map Trade.buyVol).sum + (s.trades.map Trade.sellVol).sum = 0) :
    ¬s.getStats = none := by
  obtain ⟨sym, w, tr, fp, lp⟩ := s
  simp only at hne htot
  cases tr with
  | nil => exact absurd rfl hne
  | cons t0 tl =>
    simp only [SymbolState.getStats]
    rw [if_neg htot]
    simp

/-- Counterexample to C4 as stated: `oneTradeState` holds one trade at
t=0 in a 180-second window.  At clock time t=200000 ms the window has long
passed and no new trade was added — but nothing in the code runs on a
clock advance alone (`cleanup` only runs inside `addTrade`, and `getStats`
reads no clock), so the state is unchanged and `getStats` still returns a
stats record, not null.  The first conjunct states that every retained
trade is already older than the window at t=200000. -/
theorem getStats_unpruned_without_addTrade_cex :
    (∀ tr ∈ oneTradeState.trades,
        tr.timestamp < 200000 - oneTradeState.windowMs) ∧
    ¬oneTradeState.getStats = none := by
  have htr : oneTradeState.trades =
      [{ timestamp := 0, price := 100, buyVol := 100, sellVol := 0 }] := by
    norm_num [oneTradeState, SymbolState.init, SymbolState.addTrade,
      SymbolState.cleanup]
  have hw : oneTradeState.windowMs = 180000 := by
    norm_num [oneTradeState, SymbolState.init, SymbolState.addTrade,
      SymbolState.cleanup]
  constructor
  · intro tr h
    rw [htr] at h
    have heq : tr = { timestamp := 0, price := 100, buyVol := 100, sellVol := 0 } := by
      simpa using h
    rw [heq, hw]
    decide
  · apply getStats_ne_none_of
    · rw [htr]
      simp
    · rw [htr]
      norm_num

/-- C4 (amended): `getStats` returns null after the clock passes the
window only once pruning actually runs — invoking `cleanup` at a time `t`
past every retained trade's window (with no new trade added) empties the
trade list, resets `firstPrice`, and `getStats` then returns null.  In the
code this happens on the next `addTrade`; a clock advance alone changes
nothing. -/
theorem getStats_null_after_stale_cleanup (s : SymbolState) (t : Int)
    (h : ∀ tr ∈ s.trades, tr.timestamp < t - s.windowMs) :
    (s.cleanup t).getStats = none ∧
    (s.cleanup t).trades = [] ∧
    (s.cleanup t).firstPrice = none := by
  have hnil : s.trades.filter (fun tr => decide (t - s.windowMs ≤ tr.timestamp)) = [] := by
    rw [List.filter_eq_nil_iff]
    intro a ha
    simp only [decide_eq_true_eq, not_le]
    exact h a ha
  have htr : (s.cleanup t).trades = [] := by
    simp only [SymbolState.cleanup]
    exact hnil
  have hfp : (s.cleanup t).firstPrice = none := by
    simp only [SymbolState.cleanup, hnil]
  exact ⟨getStats_nil _ htr, htr, hfp⟩

/-- Witness for C4 (amended): cleaning up `oneTradeState` at t=200000
(past the 180-second window) makes `getStats` return null. -/
theorem getStats_null_after_stale_cleanup_witness :
    (oneTradeState.cleanup 200000).getStats = none :=
  (getStats_null_after_stale_cleanup oneTradeState 200000 (by decide)).1

/-! ## C5 — volume conservation and dominance bounds -/

theorem addTrade_nonneg {s : SymbolState}
    (hnn : ∀ tr ∈ s.trades, 0 ≤ tr.buyVol ∧ 0 ≤ tr.sellVol)
    (ts : Int) (price quantity : ℚ) (m : Bool)
    (hp : 0 ≤ price) (hq : 0 ≤ quantity) :
    ∀ tr ∈ (s.addTrade ts price quantity m).trades,
      0 ≤ tr.buyVol ∧ 0 ≤ tr.sellVol := by
  intro tr htr
  simp only [SymbolState.addTrade, SymbolState.cleanup] at htr
  have htr' := List.mem_of_mem_filter htr
  rcases List.mem_append.mp htr' with h | h
  · exact hnn tr h
  · rw [List.mem_singleton] at h
    subst h
    cases m with
    | false => constructor <;> simp [mul_nonneg hp hq]
    | true => constructor <;> simp [mul_nonneg hp hq]

theorem applyTrades_nonneg (inputs : List TradeInput) :
    ∀ (s : SymbolState),
      (∀ tr ∈ s.trades, 0 ≤ tr.buyVol ∧ 0 ≤ tr.sellVol) →
      (∀ i ∈ inputs, 0 ≤ i.price ∧ 0 ≤ i.quantity) →
      ∀ tr ∈ (s.applyTrades inputs).trades, 0 ≤ tr.buyVol ∧ 0 ≤ tr.sellVol := by
  induction inputs with
  | nil =>
    intro s hs _
    simpa [SymbolState.applyTrades] using hs
  | cons i t ih =>
    intro s hs hpos
    have hstep := addTrade_nonneg hs i.timestamp i.price i.quantity i.isBuyerMaker
      (hpos i (by simp)).1 (hpos i (by simp)).2
    have h' : s.applyTrades (i :: t) =
        (s.addTrade i.timestamp i.price i.quantity i.isBuyerMaker).applyTrades t := by
      simp [SymbolState.applyTrades]
    rw [h']
    exact ih _ hstep (fun j hj => hpos j (by simp [hj]))

theorem getStats_spec (s : SymbolState)
    (hnn : ∀ tr ∈ s.trades, 0 ≤ tr.buyVol ∧ 0 ≤ tr.sellVol) :
    (s.trades = [] → s.getStats = none) ∧
    ∀ st, s.getStats = some st →
      st.buyVolume + st.sellVolume = st.totalVolume ∧
      st.dominance = max st.buyVolume st.sellVolume / st.totalVolume * 100 ∧
      50 ≤ st.dominance ∧ st.dominance ≤ 100 ∧
      st.dominantSide = (if st.sellVolume < st.buyVolume then "buy" else "sell") := by
  refine ⟨getStats_nil s, ?_⟩
  intro st hst
  obtain ⟨sym, w, tr, fp, lp⟩ := s
  simp only at hnn
  cases tr with
  | nil => simp [SymbolState.getStats] at hst
  | cons t0 tl =>
    simp only [SymbolState.getStats] at hst
    set b := ((t0 :: tl).map Trade.buyVol).sum with hbdef
    set sl := ((t0 :: tl).map Trade.sellVol).sum with hsldef
    by_cases htot : b + sl = 0
    · rw [if_pos htot] at hst
      cases hst
    · rw [if_neg htot] at hst
      have hbnn : 0 ≤ b := by
        rw [hbdef]
        apply List.sum_nonneg
        intro x hx
        obtain ⟨tr', htr', rfl⟩ := List.mem_map.mp hx
        exact (hnn tr' htr').1
      have hslnn : 0 ≤ sl := by
        rw [hsldef]
        apply List.sum_nonneg
        intro x hx
        obtain ⟨tr', htr', rfl⟩ := List.mem_map.mp hx
        exact (hnn tr' htr').2
      have htpos : 0 < b + sl := lt_of_le_of_ne (add_nonneg hbnn hslnn) (Ne.symm htot)
      have hrec := Option.some.inj hst
      subst hrec
      have hdom : max (b / (b + sl) * 100) (sl / (b + sl) * 100) =
          max b sl / (b + sl) * 100 := by
        rcases le_total b sl with hle | hle
        · rw [max_eq_right hle, max_eq_right]
          exact mul_le_mul_of_nonneg_right
            ((div_le_div_iff_of_pos_right htpos).mpr hle) (by norm_num)
        · rw [max_eq_left hle, max_eq_left]
          exact mul_le_mul_of_nonneg_right
            ((div_le_div_iff_of_pos_right htpos).mpr hle) (by norm_num)
      have hmax2 : b + sl ≤ 2 * max b sl := by
        rcases le_total b sl with hle | hle
        · rw [max_eq_right hle]; linarith
        · rw [max_eq_left hle]; linarith
      have hmaxle : max b sl ≤ b + sl := by
        rcases le_total b sl with hle | hle
        · rw [max_eq_right hle]; linarith
        · rw [max_eq_left hle]; linarith
      refine ⟨rfl, hdom, ?_, ?_, rfl⟩
      · rw [hdom, div_mul_eq_mul_div, le_div_iff₀ htpos]
        linarith
      · rw [hdom, div_mul_eq_mul_div, div_le_iff₀ htpos]
        linarith

/-- C5: building a window state by feeding any sequence of trade events
(nonnegative price and quantity) and asking for stats: `getStats` is null
when no trades were added; otherwise `buyVolume + sellVolume =
totalVolume`, the dominance equals `max(buy, sell) / total * 100` and lies
in [50, 100], and the dominant side is `"buy"` exactly on strict buy
majority (ties resolve to `"sell"`). -/
theorem getStats_volume_dominance (sym : String) (w : Int)
    (inputs : List TradeInput)
    (hpos : ∀ i ∈ inputs, 0 ≤ i.price ∧ 0 ≤ i.quantity) :
    (inputs = [] → ((SymbolState.init sym w).applyTrades inputs).getStats = none) ∧
    ∀ st, ((SymbolState.init sym w).applyTrades inputs).getStats = some st →
      st.buyVolume + st.sellVolume = st.totalVolume ∧
      st.dominance = max st.buyVolume st.sellVolume / st.totalVolume * 100 ∧
      50 ≤ st.dominance ∧ st.dominance ≤ 100 ∧
      st.dominantSide = (if st.sellVolume < st.buyVolume then "buy" else "sell") := by
  have hnn := applyTrades_nonneg inputs (SymbolState.init sym w)
    (by intro tr htr; simp [SymbolState.init] at htr) hpos
  constructor
  · rintro rfl
    exact getStats_nil _ (by simp [SymbolState.applyTrades, SymbolState.init])
  · exact (getStats_spec _ hnn).2

/-- Witness for C5: a $100 aggressive buy and a $300 aggressive sell give
total $400, 75% sell dominance, dominant side `"sell"`. -/
theorem getStats_volume_dominance_witness :
    ((SymbolState.init "ADAUSDT" 180).applyTrades tradeInputsEx).getStats =
      some statsOutEx ∧
    (statsOutEx.buyVolume + statsOutEx.sellVolume = statsOutEx.totalVolume ∧
     statsOutEx.dominance =
       max statsOutEx.buyVolume statsOutEx.sellVolume / statsOutEx.totalVolume * 100 ∧
     50 ≤ statsOutEx.dominance ∧ statsOutEx.dominance ≤ 100 ∧
     statsOutEx.dominantSide =
       (if statsOutEx.sellVolume < statsOutEx.buyVolume then "buy" else "sell")) := by
  have hev : ((SymbolState.init "ADAUSDT" 180).applyTrades tradeInputsEx).getStats =
      some statsOutEx := by
    norm_num [tradeInputsEx, statsOutEx, SymbolState.init, SymbolState.applyTrades,
      SymbolState.addTrade, SymbolState.cleanup, SymbolState.getStats, max_def]
  exact ⟨hev, (getStats_volume_dominance "ADAUSDT" 180 tradeInputsEx
    (by norm_num [tradeInputsEx])).2 statsOutEx hev⟩

/-! ## C6 — OI snapshot lookup -/

theorem find?_eq_some_split {α : Type} (p : α → Bool) :
    ∀ (l : List α) (a : α), l.find? p = some a →
      p a = true ∧ ∃ l1 l2, l = l1 ++ a :: l2 ∧ ∀ x ∈ l1, ¬p x = true := by
  intro l
  induction l with
  | nil => intro a h; cases h
  | cons x t ih =>
    intro a h
    by_cases hx : p x = true
    · rw [List.find?_cons_of_pos t hx] at h
      obtain rfl := Option.some.inj h
      exact ⟨hx, [], t, rfl, by simp⟩
    · rw [List.find?_cons_of_neg] at h
      · obtain ⟨hp, l1, l2, heq, hall⟩ := ih a h
        refine ⟨hp, x :: l1, l2, by rw [heq]; rfl, ?_⟩
        intro y hy
        rcases List.mem_cons.mp hy with rfl | hy'
        · exact hx
        · exact hall y hy'
      · simpa using hx

/-- C6: the OI snapshot query returns null exactly when the instrument's
history is empty; otherwise the latest history point supplies the now
values, and the scan from newest to oldest picks as "past" the last point
whose timestamp is at or before `now - windowMs` (every point after it in
the history is strictly newer than the cutoff), from which the percentage
deltas are computed; when no such point exists, `hasWindowData` is false
and all deltas are null.  At the spec's concrete input — points at t=0
(oi=100, price=10) and t=300s (oi=110, price=10.5), query at t=300s with a
300s window — the deltas are exactly 10% and 5%. -/
theorem getOIStats_snapshot_lookup (history : List OIPoint) (now windowMs : Int) :
    (history = [] → getOIStats history now windowMs = none) ∧
    (∀ latest, history.getLast? = some latest →
      ∃ r, getOIStats history now windowMs = some r ∧
        r.oiNow = latest.oi ∧ r.priceNow = latest.price ∧
        r.historyCount = history.length ∧
        ((∀ q ∈ history, ¬q.ts ≤ now - windowMs) →
           r.hasWindowData = false ∧ r.oiDeltaPct = none ∧ r.priceDeltaPct = none ∧
           r.oi5mAgo = none ∧ r.price5mAgo = none) ∧
        (∀ past,
           history.reverse.find? (fun q => decide (q.ts ≤ now - windowMs)) = some past →
           r.hasWindowData = true ∧ past.ts ≤ now - windowMs ∧
           (∃ l1 l2, history = l1 ++ past :: l2 ∧ ∀ q ∈ l2, ¬q.ts ≤ now - windowMs) ∧
           r.oi5mAgo = some past.oi ∧
           r.oiDeltaPct = some ((latest.oi - past.oi) / past.oi * 100) ∧
           r.price5mAgo = some past.price ∧
           r.priceDeltaPct = some ((latest.price - past.price) / past.price * 100))) ∧
    (∃ r0, getOIStats histEx 300000 300000 = some r0 ∧
       r0.oiDeltaPct = some 10 ∧ r0.priceDeltaPct = some 5 ∧
       r0.hasWindowData = true) := by
  refine ⟨?_, ?_, ?_⟩
  · rintro rfl
    rfl
  · intro latest hlast
    simp only [getOIStats, hlast]
    cases hf : history.reverse.find? (fun q => decide (q.ts ≤ now - windowMs)) with
    | none =>
      refine ⟨_, rfl, rfl, rfl, rfl, fun _ => ⟨rfl, rfl, rfl, rfl, rfl⟩, ?_⟩
      intro past hpast
      cases hpast
    | some past =>
      refine ⟨_, rfl, rfl, rfl, rfl, ?_, ?_⟩
      · intro hforall
        have hmem := List.mem_of_find?_eq_some hf
        rw [List.mem_reverse] at hmem
        have hp := List.find?_some hf
        rw [decide_eq_true_eq] at hp
        exact absurd hp (hforall past hmem)
      · intro past' hpast'
        obtain rfl := Option.some.inj hpast'
        obtain ⟨hp, r1, r2, hsplit, hall⟩ := find?_eq_some_split _ _ _ hf
        have hts : past.ts ≤ now - windowMs := by
          rw [decide_eq_true_eq] at hp
          exact hp
        have hh : history = r2.reverse ++ past :: r1.reverse := by
          have hrr := congrArg List.reverse hsplit
          rw [List.reverse_reverse] at hrr
          rw [hrr]
          simp
        refine ⟨rfl, hts, ⟨r2.reverse, r1.reverse, hh, ?_⟩, rfl, rfl, rfl, rfl⟩
        intro q hq
        rw [List.mem_reverse] at hq
        have hq' := hall q hq
        simpa using hq'
  · refine ⟨_, rfl, ?_, ?_, rfl⟩
    · show some (((110:ℚ) - 100) / 100 * 100) = some 10
      norm_num
    · show some (((21/2:ℚ) - 10) / 10 * 100) = some 5
      norm_num
